import Mathlib

/-!
# rogue-metadata: the DNS blackhole server and the instance-data provider choice

A shallow embedding of `internal/blackhole/server.go` and
`internal/config/instance_data.go`, with the parts of the Go standard
library (`net`, `net/netip`, `strings`) and of `github.com/miekg/dns`
(`Msg.SetReply`, `ServeMux.HandleFunc`, `CanonicalName`) that these files call.
The library functions follow their Go sources: `net.ParseIP` is the one that
goes through `netip.ParseAddr`, `miekg/dns` is the v1.1 line.

Conventions of the embedding:

* a Go slice is a `List`; the nil slice is `[]` (no function below ever
  produces an empty non-nil slice);
* a Go `error` is `Option String` holding the error message, `none` is `nil`;
* a function returning `(x, err)` returns the pair, so that the value
  returned next to an error stays visible;
* a method with a pointer receiver that mutates it takes the old state and
  returns the new one;
* bytes and the `uint16`/`uint32` fields of DNS messages are `Nat`;
* calls to the logger are left out: they do not influence any returned value
  or any message written to a client;
* what the operating system and the network answer (`net.Interfaces`,
  `Interface.Addrs`, `dns.Client.Exchange`) is an input, see `Host`.
-/

set_option autoImplicit false
set_option linter.dupNamespace false

namespace RogueMetadata

/-! ## Package `net`: IP addresses -/

/-- Go `net.IP`, a byte slice; the nil address is `[]`. -/
abbrev IP := List Nat

/-- Go `net.IPv4len`. -/
def IPv4len : Nat := 4

/-- Go `net.IPv6len`. -/
def IPv6len : Nat := 16

/-- Go `net.v4InV6Prefix`. -/
def v4InV6Prefix : List Nat := [0, 0, 0, 0, 0, 0, 0, 0, 0, 0, 0xff, 0xff]

/-- Go `net.IPv4(a, b, c, d)`: the 16-byte form of an IPv4 address. -/
def IPv4 (a b c d : Nat) : IP := v4InV6Prefix ++ [a, b, c, d]

/-- Go `net.IPv4zero`. -/
def IPv4zero : IP := IPv4 0 0 0 0

/-- Go `net.IPv6unspecified`. -/
def IPv6unspecified : IP := List.replicate 16 0

/-- Go `net.isZeros`. -/
def isZeros (p : List Nat) : Bool := p.all (fun b => b == 0)

/-- Go `IP.To4`: the 4-byte form of an IPv4 address, nil when `ip` is not one. -/
def IP.To4 (ip : IP) : IP :=
  if ip.length = IPv4len then ip
  else if ip.length = IPv6len ∧ isZeros (ip.take 10) = true ∧ ip.getD 10 0 = 0xff
      ∧ ip.getD 11 0 = 0xff then
    (ip.drop 12).take 4
  else []

/-- Go `IP.Equal`: equality of addresses, an IPv4 address being equal to its
16-byte form. -/
def IP.Equal (ip x : IP) : Bool :=
  if ip.length = x.length then decide (ip = x)
  else if ip.length = IPv4len ∧ x.length = IPv6len then
    decide (x.take 12 = v4InV6Prefix) && decide (ip = x.drop 12)
  else if ip.length = IPv6len ∧ x.length = IPv4len then
    decide (ip.take 12 = v4InV6Prefix) && decide (ip.drop 12 = x)
  else false

/-- Go `IP.IsUnspecified`. -/
def IP.IsUnspecified (ip : IP) : Bool :=
  ip.Equal IPv4zero || ip.Equal IPv6unspecified

/-- Go `IP.IsPrivate` (RFC 1918 for IPv4, RFC 4193 for IPv6). -/
def IP.IsPrivate (ip : IP) : Bool :=
  let ip4 := ip.To4
  if ip4 ≠ [] then
    ip4.getD 0 0 == 10 ||
      (ip4.getD 0 0 == 172 && Nat.land (ip4.getD 1 0) 0xf0 == 16) ||
      (ip4.getD 0 0 == 192 && ip4.getD 1 0 == 168)
  else
    decide (ip.length = IPv6len) && Nat.land (ip.getD 0 0) 0xfe == 0xfc

/-! ## Package `net/netip`: parsing, as used by `net.ParseIP` -/

/-- Decimal value of an ASCII digit. -/
def digitVal (c : Char) : Option Nat :=
  if 48 ≤ c.toNat ∧ c.toNat ≤ 57 then some (c.toNat - 48) else none

/-- Value of an ASCII hexadecimal digit. -/
def hexVal (c : Char) : Option Nat :=
  if 48 ≤ c.toNat ∧ c.toNat ≤ 57 then some (c.toNat - 48)
  else if 97 ≤ c.toNat ∧ c.toNat ≤ 102 then some (c.toNat - 97 + 10)
  else if 65 ≤ c.toNat ∧ c.toNat ≤ 70 then some (c.toNat - 65 + 10)
  else none

/-- The loop of Go `netip.parseIPv4Fields` over the text `s`, writing the
octets into `fields[base + pos]`. `prev` is the character before the current
one (`none` at index 0), `val`, `pos` and `digLen` are the loop variables. -/
def parseIPv4FieldsLoop (base : Nat) :
    List Char → Option Char → Nat → Nat → Nat → List Nat → Option (List Nat)
  | [], _, val, pos, _, fields =>
    if pos < 3 then none else some (fields.set (base + 3) val)
  | c :: rest, prev, val, pos, digLen, fields =>
    match digitVal c with
    | some d =>
      if digLen = 1 ∧ val = 0 then none
      else if val * 10 + d > 255 then none
      else parseIPv4FieldsLoop base rest (some c) (val * 10 + d) pos (digLen + 1) fields
    | none =>
      if c = '.' then
        if prev = none ∨ rest = [] ∨ prev = some '.' then none
        else if pos = 3 then none
        else parseIPv4FieldsLoop base rest (some c) 0 (pos + 1) 0 (fields.set (base + pos) val)
      else none

/-- Go `netip.parseIPv4Fields(in, off, end, fields)` with `s = in[off:end]` and
`fields` the four bytes of `ip` from index `base` on. -/
def parseIPv4Fields (s : List Char) (ip : List Nat) (base : Nat) : Option (List Nat) :=
  parseIPv4FieldsLoop base s none 0 0 0 ip

/-- Go `netip.parseIPv4` followed by `Addr.As16`: an IPv4 address in its
16-byte form. -/
def parseIPv4 (s : List Char) : Option (List Nat) :=
  match parseIPv4Fields s [0, 0, 0, 0] 0 with
  | some fields => some (v4InV6Prefix ++ fields)
  | none => none

/-- The inner loop of Go `netip.parseIPv6` reading one group of hexadecimal
digits: returns `off`, `acc` and `s[off:]`, or `none` where Go returns an
error. -/
def hexGroup : List Char → Nat → Nat → Option (Nat × Nat × List Char)
  | [], off, acc => some (off, acc, [])
  | c :: rest, off, acc =>
    match hexVal c with
    | none => some (off, acc, c :: rest)
    | some v =>
      if off > 3 then none
      else if (acc * 16 + v) % 2 ^ 32 > 0xffff then none
      else hexGroup rest (off + 1) ((acc * 16 + v) % 2 ^ 32)

/-- The main loop `for i < 16` of Go `netip.parseIPv6`. Every turn that
continues adds 2 to `i`, so 8 turns always suffice; the first argument counts
the turns left. Returns the values of `s`, `i`, `ip` and `ellipsis` after the
loop, `ellipsis = none` standing for `-1`. -/
def parseIPv6Loop : Nat → List Char → Nat → List Nat → Option Nat →
    Option (List Char × Nat × List Nat × Option Nat)
  | 0, s, i, ip, ellipsis => some (s, i, ip, ellipsis)
  | turns + 1, s, i, ip, ellipsis =>
    if ¬ i < 16 then some (s, i, ip, ellipsis)
    else
      match hexGroup s 0 0 with
      | none => none
      | some (off, acc, rest) =>
        if off = 0 then none
        else if rest.head? = some '.' then
          if ellipsis = none ∧ i ≠ 12 then none
          else if i + 4 > 16 then none
          else
            match parseIPv4Fields s ip i with
            | none => none
            | some ip4 => some ([], i + 4, ip4, ellipsis)
        else
          let ip1 := (ip.set i (acc / 256 % 256)).set (i + 1) (acc % 256)
          match rest with
          | [] => some ([], i + 2, ip1, ellipsis)
          | c :: rest1 =>
            if c ≠ ':' then none
            else
              match rest1 with
              | [] => none
              | c1 :: rest2 =>
                if c1 = ':' then
                  if ellipsis ≠ none then none
                  else if rest2 = [] then some ([], i + 2, ip1, some (i + 2))
                  else parseIPv6Loop turns rest2 (i + 2) ip1 (some (i + 2))
                else parseIPv6Loop turns (c1 :: rest2) (i + 2) ip1 ellipsis

/-- The tail of Go `netip.parseIPv6`: move the groups after the ellipsis to
the end (`for j := i - 1; j >= ellipsis; j--`) and clear the gap. -/
def expandEllipsis (ip : List Nat) (i ellipsis : Nat) : List Nat :=
  let n := 16 - i
  let moved := (List.range (i - ellipsis)).foldl
    (fun ip k => ip.set (i - 1 - k + n) (ip.getD (i - 1 - k) 0)) ip
  (List.range n).foldl (fun ip k => ip.set (ellipsis + k) 0) moved

/-- Go `netip.parseIPv6` on the text before the zone. -/
def parseIPv6Body (s : List Char) : Option (List Nat) :=
  let start : List Char × Option Nat :=
    match s with
    | ':' :: ':' :: rest => (rest, some 0)
    | _ => (s, none)
  if start.2 = some 0 ∧ start.1 = [] then some IPv6unspecified
  else
    match parseIPv6Loop 8 start.1 0 (List.replicate 16 0) start.2 with
    | none => none
    | some (s2, i, ip, ellipsis) =>
      if s2 ≠ [] then none
      else if i < 16 then
        match ellipsis with
        | none => none
        | some e => some (expandEllipsis ip i e)
      else if ellipsis ≠ none then none
      else some ip

/-- Go `netip.parseIPv6`: splits off the zone after `%`, which must not be
empty, and parses the rest. Returns the 16 bytes and the zone. -/
def parseIPv6 (s : List Char) : Option (List Nat × List Char) :=
  let body := s.takeWhile (fun c => c != '%')
  let after := s.dropWhile (fun c => c != '%')
  match after with
  | [] => (parseIPv6Body body).map (fun ip => (ip, []))
  | _ :: zone =>
    if zone = [] then none
    else (parseIPv6Body body).map (fun ip => (ip, zone))

/-- The scan of Go `netip.ParseAddr` for the first `.`, `:` or `%` of `s`;
the result is the 16-byte form of the address and its zone. -/
def parseAddrScan (s : List Char) : List Char → Option (List Nat × List Char)
  | [] => none
  | c :: rest =>
    if c = '.' then (parseIPv4 s).map (fun ip => (ip, []))
    else if c = ':' then parseIPv6 s
    else if c = '%' then none
    else parseAddrScan s rest

/-- Go `net.ParseIP`: `netip.ParseAddr`, rejecting an address with a zone;
nil (`[]`) when `s` is not the text of an IP address, else 16 bytes. -/
def ParseIP (s : String) : IP :=
  match parseAddrScan s.data s.data with
  | some (ip, zone) => if zone ≠ [] then [] else ip
  | none => []

/-! ## Package `strings` -/

/-- Go `strings.HasPrefix`. -/
def HasPrefix (s pre : String) : Bool := pre.data.isPrefixOf s.data

/-- Go `strings.HasSuffix`. -/
def HasSuffix (s suf : String) : Bool := suf.data.isSuffixOf s.data

/-- Go `unicode.ToLower`: ASCII letters directly, any other rune through the
Unicode case tables, which are the argument `caseTable`. -/
def unicodeToLower (caseTable : Char → Char) (r : Char) : Char :=
  if r.toNat ≤ 0x7f then
    if 65 ≤ r.toNat ∧ r.toNat ≤ 90 then Char.ofNat (r.toNat + 32) else r
  else caseTable r

/-- Go `strings.ToLower` on a text of valid UTF-8. -/
def ToLower (caseTable : Char → Char) (s : String) : String :=
  String.mk (s.data.map (unicodeToLower caseTable))

/-! ## Package `github.com/miekg/dns` -/

namespace dns

/-- The record type `dns.TypeA`. -/
def TypeA : Nat := 1

/-- The record type `dns.TypeAAAA`. -/
def TypeAAAA : Nat := 28

/-- The class `dns.ClassINET`. -/
def ClassINET : Nat := 1

/-- The opcode `dns.OpcodeQuery`. -/
def OpcodeQuery : Nat := 0

/-- The response code `dns.RcodeSuccess`. -/
def RcodeSuccess : Nat := 0

/-- The response code `dns.RcodeNameError` (NXDOMAIN). -/
def RcodeNameError : Nat := 3

/-- The struct `dns.Question`. -/
structure Question where
  Name : String
  Qtype : Nat
  Qclass : Nat
deriving DecidableEq, Repr

/-- The struct `dns.RR_Header`. -/
structure RR_Header where
  Name : String := ""
  Rrtype : Nat := 0
  Class : Nat := 0
  Ttl : Nat := 0
  Rdlength : Nat := 0
deriving DecidableEq, Repr

/-- The struct `dns.A`: an A record. -/
structure A where
  Hdr : RR_Header := {}
  A : IP := []
deriving DecidableEq, Repr

/-- The struct `dns.AAAA`: an AAAA record. -/
structure AAAA where
  Hdr : RR_Header := {}
  AAAA : IP := []
deriving DecidableEq, Repr

/-- The interface `dns.RR`: a pointer to an A record, to an AAAA record, or
a record of another type, kept as its header and raw data. -/
inductive RR where
  | A (rr : dns.A)
  | AAAA (rr : dns.AAAA)
  | other (hdr : RR_Header) (rdata : List Nat)
deriving DecidableEq, Repr

/-- The header of a record (`RR.Header()`). -/
def RR.Header : RR → RR_Header
  | .A rr => rr.Hdr
  | .AAAA rr => rr.Hdr
  | .other hdr _ => hdr

/-- The struct `dns.Msg` with its embedded `dns.MsgHdr`. -/
structure Msg where
  Id : Nat := 0
  Response : Bool := false
  Opcode : Nat := 0
  Authoritative : Bool := false
  Truncated : Bool := false
  RecursionDesired : Bool := false
  RecursionAvailable : Bool := false
  Zero : Bool := false
  AuthenticatedData : Bool := false
  CheckingDisabled : Bool := false
  Rcode : Nat := 0
  Compress : Bool := false
  Question : List Question := []
  Answer : List RR := []
  Ns : List RR := []
  Extra : List RR := []
deriving DecidableEq, Repr

/-- The method `(*Msg).SetReply(request)`: turns the receiver into a reply to
`request`. -/
def Msg.SetReply (m request : Msg) : Msg :=
  let m1 := { m with Id := request.Id, Response := true, Opcode := request.Opcode }
  let m2 :=
    if m1.Opcode = OpcodeQuery then
      { m1 with RecursionDesired := request.RecursionDesired,
                CheckingDisabled := request.CheckingDisabled }
    else m1
  let m3 := { m2 with Rcode := RcodeSuccess }
  match request.Question with
  | q :: _ => { m3 with Question := [q] }
  | [] => m3

/-- The interface `dns.ResponseWriter`, as the trace of what a handler did to
it: the messages given to `WriteMsg`, oldest first, and whether `Close` was
called. -/
structure ResponseWriter where
  RemoteAddr : String
  written : List Msg := []
  closed : Bool := false
deriving DecidableEq, Repr

/-- The method `ResponseWriter.WriteMsg`. -/
def ResponseWriter.WriteMsg (w : ResponseWriter) (m : Msg) : ResponseWriter :=
  { w with written := w.written ++ [m] }

/-- The method `ResponseWriter.Close`. -/
def ResponseWriter.Close (w : ResponseWriter) : ResponseWriter :=
  { w with closed := true }

/-- The type `dns.HandlerFunc`: what a handler does to the response writer
for a request. -/
abbrev HandlerFunc := ResponseWriter → Msg → ResponseWriter

/-- Go `dns.IsFqdn`: the name ends in a dot that is not escaped. `trailing`
is the number of backslashes right before the final dot and `width` the
distance in bytes from the last other character to them (1 when there is
none, `strings.LastIndexFunc` giving -1). -/
def IsFqdn (s : String) : Bool :=
  match s.data.reverse with
  | [] => false
  | c :: body =>
    if c ≠ '.' then false
    else
      match body with
      | [] => true
      | b :: _ =>
        if b ≠ '\\' then true
        else
          let trailing := (body.takeWhile (fun r => r == '\\')).length
          let width :=
            match body.dropWhile (fun r => r == '\\') with
            | [] => 1
            | r :: _ => r.utf8Size
          decide ((trailing + width) % 2 ≠ 0)

/-- Go `dns.Fqdn`. -/
def Fqdn (s : String) : String := if IsFqdn s then s else s ++ "."

/-- Go `dns.CanonicalName`: fully qualified, ASCII letters in lower case. -/
def CanonicalName (s : String) : String :=
  String.mk ((Fqdn s).data.map
    (fun r => if 65 ≤ r.toNat ∧ r.toNat ≤ 90 then Char.ofNat (r.toNat + 32) else r))

/-- The struct `dns.ServeMux`: the table `z` from canonical zone names to
handlers. -/
structure ServeMux where
  z : String → Option HandlerFunc

/-- Go `dns.NewServeMux`. -/
def NewServeMux : ServeMux := ⟨fun _ => none⟩

/-- The method `(*ServeMux).HandleFunc(pattern, handler)`. Go panics on the
empty pattern; a caller has to show that its pattern is not empty. -/
def ServeMux.HandleFunc (mux : ServeMux) (pattern : String) (_ne : pattern ≠ "")
    (handler : HandlerFunc) : ServeMux :=
  ⟨fun name => if name = CanonicalName pattern then some handler else mux.z name⟩

/-- The struct `dns.Server`, a listener: its address and transport. All
listeners of a server share the handler table of the server. -/
structure Server where
  Addr : String
  Net : String
deriving DecidableEq, Repr

end dns

/-! ## The host: operating system and network -/

/-- Go `error`: the message, `none` for `nil`. -/
abbrev error := Option String

/-- Go `net.Addr` as returned by `Interface.Addrs`: a `*net.IPNet`, a
`*net.IPAddr`, or a value of another type. -/
inductive Addr where
  | IPNet (IP : IP) (Mask : List Nat)
  | IPAddr (IP : IP) (Zone : String)
  | other (text : String)
deriving DecidableEq, Repr

/-- Go `net.Interface` with the result of its method `Addrs()`. -/
structure Interface where
  Name : String
  Addrs : List Addr × error
deriving DecidableEq, Repr

/-- What the host answers: `net.Interfaces()` and, for every request and
upstream address, the reply and error of `(*dns.Client).Exchange`. -/
structure Host where
  Interfaces : List Interface × error
  Exchange : dns.Msg → String → dns.Msg × error

/-! ## Package `internal/blackhole` -/

namespace blackhole

/-- The struct `blackhole.Server` (without its logger). -/
structure Server where
  listeners : List (Option dns.Server)
  handler : dns.ServeMux

/-- The struct `blackhole.Config`. -/
structure Config where
  Listen : String
  Upstream : String
  IDP : String
  Names : List String
  IPs : List String
deriving DecidableEq, Repr

/-- Go `isV4IP`, server.go:276. -/
def isV4IP (ip : IP) : Bool :=
  let p4 := ip.To4
  decide (p4.length = IPv4len)

/-- The loop of Go `ipsToRRs`, server.go:254-271: the loop state is the pair
of buckets, and the loop is left at the first unspecified address. -/
def ipsToRRsLoop : List String → List dns.A → List dns.AAAA →
    List dns.A × List dns.AAAA × error
  | [], v4RRs, v6RRs => (v4RRs, v6RRs, none)
  | ip :: ips, v4RRs, v6RRs =>
    let parsed := ParseIP ip
    if parsed.IsUnspecified then ([], [], some ("invalid IP: " ++ ip))
    else if isV4IP parsed then ipsToRRsLoop ips (v4RRs ++ [{ A := parsed }]) v6RRs
    else ipsToRRsLoop ips v4RRs (v6RRs ++ [{ AAAA := parsed }])

/-- Go `ipsToRRs`, server.go:253. -/
def ipsToRRs (ips : List String) : List dns.A × List dns.AAAA × error :=
  ipsToRRsLoop ips [] []

/-- The zone name under which `queryHandler` registers, server.go:201. -/
def fqZone (zone : String) : String :=
  if ¬ HasSuffix zone "." then zone ++ "." else zone

/-- The closure that `queryHandler` registers, server.go:205-250. -/
def queryHandlerFunc (v4RRs : List dns.A) (v6RRs : List dns.AAAA) : dns.HandlerFunc :=
  fun w req =>
    let out0 : dns.Msg := ({} : dns.Msg).SetReply req
    let out := req.Question.foldl
      (fun (out : dns.Msg) question =>
        if question.Qtype = dns.TypeA then
          v4RRs.foldl
            (fun (out : dns.Msg) ip =>
              { out with Answer := out.Answer ++ [dns.RR.A
                  { Hdr := { Name := question.Name, Rrtype := question.Qtype,
                             Class := dns.ClassINET, Ttl := 90 },
                    A := ip.A }] })
            out
        else if question.Qtype = dns.TypeAAAA then
          v6RRs.foldl
            (fun (out : dns.Msg) ip =>
              { out with Answer := out.Answer ++ [dns.RR.AAAA
                  { Hdr := { Name := question.Name, Rrtype := question.Qtype,
                             Class := dns.ClassINET, Ttl := 90 },
                    AAAA := ip.AAAA }] })
            out
        else out)
      out0
    (w.WriteMsg out).Close

/-- Go `(*Server).queryHandler`, server.go:200. -/
def Server.queryHandler (s : Server) (zone : String) (v4RRs : List dns.A)
    (v6RRs : List dns.AAAA) : Server :=
  let mux := s.handler.HandleFunc (fqZone zone)
    (by
      unfold fqZone
      split
      · intro h
        have h1 := congrArg String.data h
        simp at h1
      · rename_i h
        intro h1
        rw [h1] at h
        exact h (by decide))
    (queryHandlerFunc v4RRs v6RRs)
  { s with handler := mux }

/-- Go `(*Server).dataIPs`, server.go:141. -/
def Server.dataIPs (host : Host) (cfgIP : String) : List dns.A × error :=
  if cfgIP ≠ "" then
    let ip := ParseIP cfgIP
    if isV4IP ip then ([], some ("invalid IP in config: " ++ cfgIP))
    else ([{ A := ip }], none)
  else
    match host.Interfaces with
    | (_, some err) => ([], some ("get ifaces: " ++ err))
    | (ifaces, none) =>
      let out := ifaces.foldl
        (fun (out : List dns.A) i =>
          if ¬ HasPrefix i.Name "eth" ∧ ¬ HasPrefix i.Name "eno" then out
          else
            match i.Addrs with
            | (_, some _) => out
            | (addrs, none) =>
              addrs.foldl
                (fun (out : List dns.A) addr =>
                  let ip? : Option IP :=
                    match addr with
                    | .IPNet ip _ => some ip
                    | .IPAddr ip _ => some ip
                    | .other _ => none
                  match ip? with
                  | none => out
                  | some ip =>
                    if ¬ isV4IP ip then out
                    else if ¬ ip.IsPrivate then out
                    else out ++ [{ A := ip }])
                out)
        []
      (out, none)

/-- Go `(*Server).buildHolesRoutes`, server.go:102. -/
def Server.buildHolesRoutes (s : Server) (zones ips : List String) : Server × error :=
  match ipsToRRs ips with
  | (_, _, some err) => (s, some ("parse ips: " ++ err))
  | (v4RRs, v6RRs, none) =>
    (zones.foldl (fun s zone => s.queryHandler zone v4RRs v6RRs) s, none)

/-- Go `(*Server).buildDataRoutes`, server.go:115. -/
def Server.buildDataRoutes (host : Host) (s : Server) (cfgIP : String) : Server × error :=
  match Server.dataIPs host cfgIP with
  | (_, some err) => (s, some ("collect data ips: " ++ err))
  | (ips, none) => (s.queryHandler "instance-data." ips [], none)

/-- The closure that `buildProxyHandler` registers, server.go:127-136. -/
def proxyHandlerFunc (host : Host) (upstream : String) : dns.HandlerFunc :=
  fun w req =>
    match host.Exchange req upstream with
    | (_, some _) => w
    | (rsp, none) => w.WriteMsg (rsp.SetReply req)

/-- Go `(*Server).buildProxyHandler`, server.go:125. -/
def Server.buildProxyHandler (host : Host) (s : Server) (upstream : String) :
    Server × error :=
  let mux := s.handler.HandleFunc "." (by decide) (proxyHandlerFunc host upstream)
  ({ s with handler := mux }, none)

/-- Go `(*Server).buildHandler`, server.go:86. -/
def Server.buildHandler (host : Host) (s : Server) (cfg : Config) : Server × error :=
  match s.buildHolesRoutes cfg.Names cfg.IPs with
  | (s1, some err) => (s1, some ("build black hole routes: " ++ err))
  | (s1, none) =>
    match Server.buildDataRoutes host s1 cfg.IDP with
    | (s2, some err) => (s2, some ("build data routes: " ++ err))
    | (s2, none) =>
      match Server.buildProxyHandler host s2 cfg.Upstream with
      | (s3, some err) => (s3, some ("build proxy routes: " ++ err))
      | (s3, none) => (s3, none)

/-- Go `NewServer`, server.go:30: nil (`none`) and an error when the handler
cannot be built, else the server with its TCP and UDP listeners. -/
def NewServer (host : Host) (cfg : Config) : Option Server × error :=
  let srv : Server := { listeners := [none, none], handler := dns.NewServeMux }
  match srv.buildHandler host cfg with
  | (_, some err) => (none, some ("failed to build DNS handler: " ++ err))
  | (srv1, none) =>
    (some { srv1 with listeners :=
        (["tcp", "udp"].map (fun n => some ({ Addr := cfg.Listen, Net := n } : dns.Server))) },
     none)

end blackhole

/-! ## Packages `internal/idp/...`, `internal/idpsrv` and `internal/config` -/

/-- The interface `idp.Provider` (an `http.Handler`), by the two values the
repository builds: the file server of `fsprovider.NewProvider` and the
reverse proxy of `proxyprovider.NewProvider`. -/
inductive Provider where
  | FileServer (dir : String)
  | ReverseProxy (upstream : String)
deriving DecidableEq, Repr

/-- Go `fsprovider.NewProvider`: `http.FileServer(http.Dir(dir))`. -/
def fsprovider.NewProvider (dir : String) : Provider := .FileServer dir

/-- Go `proxyprovider.NewProvider`: the reverse proxy to `upstream`. -/
def proxyprovider.NewProvider (upstream : String) : Provider := .ReverseProxy upstream

/-- The struct `idpsrv.HandlerWrapper`; the wrapped handler is an interface
value, `none` being nil. -/
structure HandlerWrapper where
  h : Option Provider
deriving DecidableEq, Repr

/-- The struct `http.Server` with the fields that `idpsrv.NewServer` sets. -/
structure HttpServer where
  Addr : String
  Handler : HandlerWrapper
deriving DecidableEq, Repr

/-- Go `idpsrv.NewServer`. -/
def idpsrv.NewServer (addr : String) (handler : Option Provider) :
    Option HttpServer × error :=
  (some { Addr := addr, Handler := { h := handler } }, none)

namespace config

/-- The type `InstanceDataProviderKind`, a string. -/
abbrev InstanceDataProviderKind := String

/-- The constant `InstanceDataProviderKindNone`. -/
def InstanceDataProviderKindNone : InstanceDataProviderKind := ""

/-- The constant `InstanceDataProviderKindFS`. -/
def InstanceDataProviderKindFS : InstanceDataProviderKind := "fs"

/-- The constant `InstanceDataProviderKindProxy`. -/
def InstanceDataProviderKindProxy : InstanceDataProviderKind := "proxy"

/-- Go `(*InstanceDataProviderKind).UnmarshalText`, instance_data.go:22:
returns the new value of the receiver and the error. -/
def UnmarshalText (caseTable : Char → Char) (k : InstanceDataProviderKind)
    (data : String) : InstanceDataProviderKind × error :=
  let lowered := ToLower caseTable data
  if lowered = "" ∨ lowered = "none" then (InstanceDataProviderKindNone, none)
  else if lowered = "fs" then (InstanceDataProviderKindFS, none)
  else if lowered = "proxy" then (InstanceDataProviderKindProxy, none)
  else (k, some ("invalid upstream kind: " ++ data))

/-- The struct `InstanceDataProviderFS`. -/
structure InstanceDataProviderFS where
  Dir : String
deriving DecidableEq, Repr

/-- The struct `InstanceDataProviderProxy`. -/
structure InstanceDataProviderProxy where
  Upstream : String
deriving DecidableEq, Repr

/-- The struct `InstanceData`. -/
structure InstanceData where
  Listen : String
  Provider : InstanceDataProviderKind
  FS : InstanceDataProviderFS
  Proxy : InstanceDataProviderProxy
deriving DecidableEq, Repr

/-- The struct `config.Config`. -/
structure Config where
  Verbose : Bool
  DNS : blackhole.Config
  InstanceData : InstanceData
deriving DecidableEq, Repr

/-- The struct `Runtime`. -/
structure Runtime where
  cfg : Config
deriving DecidableEq, Repr

/-- Go `(*Runtime).NewDataProvider`, instance_data.go:55. -/
def Runtime.NewDataProvider (r : Runtime) : Option Provider × error :=
  if r.cfg.InstanceData.Provider = InstanceDataProviderKindFS then
    (some (fsprovider.NewProvider r.cfg.InstanceData.FS.Dir), none)
  else if r.cfg.InstanceData.Provider = InstanceDataProviderKindProxy then
    (some (proxyprovider.NewProvider r.cfg.InstanceData.Proxy.Upstream), none)
  else
    (none, some ("unsupported instance data provider: " ++ r.cfg.InstanceData.Provider))

/-- Go `(*Runtime).NewInstanceDataServer`, instance_data.go:66. -/
def Runtime.NewInstanceDataServer (r : Runtime) : Option HttpServer × error :=
  match r.NewDataProvider with
  | (_, some err) => (none, some ("create data provider: " ++ err))
  | (dataProvider, none) => idpsrv.NewServer r.cfg.InstanceData.Listen dataProvider

/-- Go `(*Runtime).NewDNSServer`, dns.go:13. -/
def Runtime.NewDNSServer (host : Host) (r : Runtime) : Option blackhole.Server × error :=
  blackhole.NewServer host r.cfg.DNS

/-- The defaults of `LoadConfig`, config.go:23-47. -/
def defaultConfig : Config :=
  { Verbose := true,
    DNS :=
      { Listen := ":53", Upstream := "1.1.1.1:53", IDP := "",
        Names := ["does-not-exist.example.com.", "example.invalid."],
        IPs := ["169.254.169.254", "fd00:ec2::254"] },
    InstanceData :=
      { Listen := ":8773", Provider := InstanceDataProviderKindProxy,
        Proxy := { Upstream := "169.254.169.254:80" },
        FS := { Dir := "./data" } } }

end config

/-! ## The behaviour the specification describes, and sample inputs -/

section SpecBlackhole
open blackhole

/-- The header the specification gives every synthesised record: the name and
type of the question, class INET, TTL 90. -/
def answerHdr (q : dns.Question) : dns.RR_Header :=
  { Name := q.Name, Rrtype := q.Qtype, Class := dns.ClassINET, Ttl := 90 }

/-- The records the specification lets one question contribute: one A record
per entry of `v4RRs` for type A, one AAAA record per entry of `v6RRs` for
type AAAA, nothing for another type. -/
def answersOf (v4RRs : List dns.A) (v6RRs : List dns.AAAA) (q : dns.Question) : List dns.RR :=
  if q.Qtype = dns.TypeA then
    v4RRs.map (fun ip => dns.RR.A { Hdr := answerHdr q, A := ip.A })
  else if q.Qtype = dns.TypeAAAA then
    v6RRs.map (fun ip => dns.RR.AAAA { Hdr := answerHdr q, AAAA := ip.AAAA })
  else []

/-- The answer section the specification describes: the records of the
questions, in the order of the questions. -/
def answerSection (v4RRs : List dns.A) (v6RRs : List dns.AAAA)
    (questions : List dns.Question) : List dns.RR :=
  questions.flatMap (answersOf v4RRs v6RRs)

/-- The reply message that `queryHandlerFunc` builds, before it is written. -/
def queryReply (v4RRs : List dns.A) (v6RRs : List dns.AAAA) (req : dns.Msg) : dns.Msg :=
  { ({} : dns.Msg).SetReply req with Answer := answerSection v4RRs v6RRs req.Question }

/-- The allow list of the interface scanner: the name starts with `eth` or
`eno`. -/
def allowListed (i : Interface) : Bool := HasPrefix i.Name "eth" || HasPrefix i.Name "eno"

/-- The IP address that an interface address carries, if it carries one. -/
def Addr.ip? : Addr → Option IP
  | .IPNet ip _ => some ip
  | .IPAddr ip _ => some ip
  | .other _ => none

/-- The addresses of an interface in enumeration order, none when the lookup
of its addresses fails. -/
def retrievableIPs (i : Interface) : List IP :=
  match i.Addrs with
  | (addrs, none) => addrs.filterMap Addr.ip?
  | (_, some _) => []

/-- The scanner output the specification describes: the private IPv4
addresses of the allow-listed interfaces, in interface-then-address order. -/
def privateIPv4s (ifaces : List Interface) : List IP :=
  ((ifaces.filter allowListed).flatMap retrievableIPs).filter
    (fun ip => isV4IP ip && ip.IsPrivate)

/-- A client of the DNS server that has been written nothing yet. -/
def client : dns.ResponseWriter := { RemoteAddr := "192.0.2.1:5353" }

/-- A query with one type-A question for a name outside every configured zone. -/
def otherQuery : dns.Msg :=
  { Id := 7, RecursionDesired := true,
    Question := [{ Name := "other.example.com.", Qtype := dns.TypeA, Qclass := dns.ClassINET }] }

/-- An upstream reply to `otherQuery` saying that the name does not exist. -/
def nxdomainReply : dns.Msg :=
  { Id := 7, Response := true, RecursionDesired := true, RecursionAvailable := true,
    Rcode := dns.RcodeNameError,
    Question := [{ Name := "other.example.com.", Qtype := dns.TypeA, Qclass := dns.ClassINET }] }

/-- A host with the loopback interface only whose upstream resolver answers
every query with `nxdomainReply`. -/
def nxdomainHost : Host :=
  { Interfaces :=
      ([{ Name := "lo", Addrs := ([.IPNet (IPv4 127 0 0 1) [0xff, 0, 0, 0]], none) }], none),
    Exchange := fun _ _ => (nxdomainReply, none) }

/-- A host with the loopback interface only whose upstream resolver never
answers. -/
def quietHost : Host :=
  { Interfaces :=
      ([{ Name := "lo", Addrs := ([.IPNet (IPv4 127 0 0 1) [0xff, 0, 0, 0]], none) }], none),
    Exchange := fun _ _ => ({}, some "i/o timeout") }

/-- The server as `NewServer` creates it, before `buildHandler` runs. -/
def freshServer : Server := { listeners := [none, none], handler := dns.NewServeMux }

/-- The text is an IPv4 address: it parses, and Go's `To4` gives its four
bytes. -/
def isIPv4Text (s : String) : Bool := decide ((ParseIP s).To4 ≠ [])

/-- The text is an IPv6 address: it parses and is not an IPv4 address. -/
def isIPv6Text (s : String) : Bool := decide (ParseIP s ≠ [] ∧ (ParseIP s).To4 = [])

/-- The A records for the configured IPv4 addresses, in configured order, as
answers to the question `q`. -/
def configuredV4Answers (ips : List String) (q : dns.Question) : List dns.RR :=
  (ips.filter isIPv4Text).map (fun ip => dns.RR.A { Hdr := answerHdr q, A := ParseIP ip })

/-- The AAAA records for the configured IPv6 addresses, in configured order,
as answers to the question `q`. -/
def configuredV6Answers (ips : List String) (q : dns.Question) : List dns.RR :=
  (ips.filter isIPv6Text).map (fun ip => dns.RR.AAAA { Hdr := answerHdr q, AAAA := ParseIP ip })

/-- A configuration whose only blackhole zone is the name of the
instance-data zone. -/
def shadowedConfig : Config :=
  { Listen := ":53", Upstream := "1.1.1.1:53", IDP := "",
    Names := ["instance-data"], IPs := ["10.0.0.1"] }

/-- A query with one type-A question for `instance-data.`. -/
def dataQueryA : dns.Msg :=
  { Id := 9, Question := [{ Name := "instance-data.", Qtype := dns.TypeA, Qclass := dns.ClassINET }] }

/-- The DNS part of the defaults of `LoadConfig`. -/
def defaultDNS : Config := config.defaultConfig.DNS

/-- A host with a loopback interface and an `eth0` interface holding a
private and a public IPv4 address and a link-local IPv6 address. -/
def sampleHost : Host :=
  { Interfaces :=
      ([{ Name := "lo", Addrs := ([.IPNet (IPv4 127 0 0 1) [0xff, 0, 0, 0]], none) },
        { Name := "eth0",
          Addrs := ([.IPNet (IPv4 10 0 0 5) [0xff, 0xff, 0xff, 0],
                     .IPNet (IPv4 93 184 216 34) [0xff, 0xff, 0xff, 0],
                     .IPNet (ParseIP "fe80::1") (List.replicate 8 0xff ++ List.replicate 8 0)],
                    none) }],
       none),
    Exchange := fun _ _ => (nxdomainReply, none) }

/-- The defaults of `LoadConfig` with the instance-data override set. -/
def overrideConfig (idp : String) : Config := { config.defaultConfig.DNS with IDP := idp }

/-- A query with one type-AAAA question for `example.invalid.`. -/
def holeQueryAAAA : dns.Msg :=
  { Id := 11,
    Question := [{ Name := "example.invalid.", Qtype := dns.TypeAAAA, Qclass := dns.ClassINET }] }

/-- A query with a type-A, a type-AAAA and a type-MX question. -/
def mixedQuery : dns.Msg :=
  { Id := 21, RecursionDesired := true,
    Question := [{ Name := "a.example.invalid.", Qtype := dns.TypeA, Qclass := dns.ClassINET },
                 { Name := "b.example.invalid.", Qtype := dns.TypeAAAA, Qclass := dns.ClassINET },
                 { Name := "c.example.invalid.", Qtype := 15, Qclass := dns.ClassINET }] }

/-- The interfaces of `sampleHost` with an `eno1` interface in between whose
address lookup fails. -/
def failingLookupHost : Host :=
  { Interfaces :=
      ([{ Name := "lo", Addrs := ([.IPNet (IPv4 127 0 0 1) [0xff, 0, 0, 0]], none) }]
        ++ { Name := "eno1", Addrs := ([], some "route ip+net: no such network interface") }
        :: [{ Name := "eth0",
              Addrs := ([.IPNet (IPv4 10 0 0 5) [0xff, 0xff, 0xff, 0],
                         .IPNet (IPv4 93 184 216 34) [0xff, 0xff, 0xff, 0],
                         .IPNet (ParseIP "fe80::1")
                           (List.replicate 8 0xff ++ List.replicate 8 0)],
                        none) }],
       none),
    Exchange := fun _ _ => (nxdomainReply, none) }

end SpecBlackhole

section SpecConfig
open config

/-- A runtime over the defaults of `LoadConfig` with the given provider kind. -/
def runtimeOfKind (kind : InstanceDataProviderKind) : Runtime :=
  { cfg := { defaultConfig with
      InstanceData := { defaultConfig.InstanceData with Provider := kind } } }

end SpecConfig

/-! ## The parser model: termination and shape of the result -/

/-- The loop of `parseIPv6` never runs out of turns: once `i + 2 * turns`
reaches 16, one more turn changes nothing, so the 8 turns given to it from
`i = 0` are all the loop `for i < 16` can take. -/
theorem parseIPv6Loop_turns (turns : Nat) (s : List Char) (i : Nat) (ip : List Nat)
    (ellipsis : Option Nat) (h : 16 ≤ i + 2 * turns) :
    parseIPv6Loop (turns + 1) s i ip ellipsis = parseIPv6Loop turns s i ip ellipsis := by
  induction turns generalizing s i ip ellipsis with
  | zero =>
    have hi : ¬ i < 16 := by omega
    simp [parseIPv6Loop, hi]
  | succ n ih =>
    have hrec : ∀ (s1 : List Char) (ip1 : List Nat) (e1 : Option Nat),
        parseIPv6Loop (n + 1) s1 (i + 2) ip1 e1 = parseIPv6Loop n s1 (i + 2) ip1 e1 :=
      fun s1 ip1 e1 => ih s1 (i + 2) ip1 e1 (by omega)
    rw [parseIPv6Loop]
    conv_rhs => rw [parseIPv6Loop]
    simp only [hrec]

/-- The loop of `parseIPv4Fields` keeps the length of the byte array. -/
theorem parseIPv4FieldsLoop_length (base : Nat) (s : List Char) (prev : Option Char)
    (val pos digLen : Nat) (fields out : List Nat)
    (h : parseIPv4FieldsLoop base s prev val pos digLen fields = some out) :
    out.length = fields.length := by
  induction s generalizing prev val pos digLen fields with
  | nil =>
    simp only [parseIPv4FieldsLoop] at h
    split_ifs at h
    simp only [Option.some.injEq] at h
    rw [← h, List.length_set]
  | cons c rest ih =>
    simp only [parseIPv4FieldsLoop] at h
    split at h
    · split_ifs at h
      exact ih _ _ _ _ _ h
    · split_ifs at h
      rw [ih _ _ _ _ _ h, List.length_set]

/-- The main loop of `parseIPv6` keeps the length of the byte array. -/
theorem parseIPv6Loop_length (turns : Nat) (s : List Char) (i : Nat) (ip : List Nat)
    (ellipsis : Option Nat) (s1 : List Char) (i1 : Nat) (ip1 : List Nat) (e1 : Option Nat)
    (h : parseIPv6Loop turns s i ip ellipsis = some (s1, i1, ip1, e1)) :
    ip1.length = ip.length := by
  induction turns generalizing s i ip ellipsis with
  | zero =>
    simp only [parseIPv6Loop, Option.some.injEq, Prod.mk.injEq] at h
    rw [← h.2.2.1]
  | succ n ih =>
    rw [parseIPv6Loop] at h
    repeat' split at h
    all_goals first
      | (simp at h; done)
      | (rw [ih _ _ _ _ h]; simp)
      | (simp only [Option.some.injEq, Prod.mk.injEq] at h
         obtain ⟨_, _, rfl, _⟩ := h
         first
           | rfl
           | simp
           | exact parseIPv4FieldsLoop_length _ _ _ _ _ _ _ _ (by assumption))

/-- Setting bytes in a loop keeps the length of the byte array. -/
theorem foldl_set_length (ks : List Nat) (pos : List Nat → Nat → Nat)
    (val : List Nat → Nat → Nat) (ip : List Nat) :
    (ks.foldl (fun ip k => ip.set (pos ip k) (val ip k)) ip).length = ip.length := by
  induction ks generalizing ip with
  | nil => rfl
  | cons k rest ih => rw [List.foldl_cons, ih, List.length_set]

/-- Expanding the ellipsis keeps the length of the byte array. -/
theorem expandEllipsis_length (ip : List Nat) (i ellipsis : Nat) :
    (expandEllipsis ip i ellipsis).length = ip.length := by
  unfold expandEllipsis
  simp only
  rw [foldl_set_length _ (fun _ k => ellipsis + k) (fun _ _ => 0),
    foldl_set_length _ (fun _ k => i - 1 - k + (16 - i)) (fun ip k => ip.getD (i - 1 - k) 0)]

/-- An address parsed by `parseIPv6` has 16 bytes. -/
theorem parseIPv6Body_length (s : List Char) (ip : List Nat)
    (h : parseIPv6Body s = some ip) : ip.length = 16 := by
  unfold parseIPv6Body at h
  simp only at h
  split_ifs at h with h0
  · simp only [Option.some.injEq] at h
    rw [← h]
    rfl
  · split at h
    · simp at h
    · rename_i s2 i ip2 e hl
      have hlen := parseIPv6Loop_length _ _ _ _ _ _ _ _ _ hl
      simp only [List.length_replicate] at hlen
      split_ifs at h
      · split at h
        · simp at h
        · simp only [Option.some.injEq] at h
          rw [← h, expandEllipsis_length, hlen]
      · simp only [Option.some.injEq] at h
        rw [← h, hlen]

/-- An address parsed by `ParseAddr` has 16 bytes in its 16-byte form. -/
theorem parseAddrScan_length (s rest : List Char) (ip : List Nat) (zone : List Char)
    (h : parseAddrScan s rest = some (ip, zone)) : ip.length = 16 := by
  induction rest with
  | nil => simp [parseAddrScan] at h
  | cons c cs ih =>
    simp only [parseAddrScan] at h
    split_ifs at h
    · simp only [Option.map_eq_some', Prod.mk.injEq] at h
      obtain ⟨a, ha, rfl, _⟩ := h
      unfold parseIPv4 at ha
      split at ha
      · rename_i fields hf
        simp only [Option.some.injEq] at ha
        rw [← ha, List.length_append]
        rw [parseIPv4FieldsLoop_length _ _ _ _ _ _ _ _ hf]
        rfl
      · simp at ha
    · unfold parseIPv6 at h
      simp only at h
      split at h
      · simp only [Option.map_eq_some', Prod.mk.injEq] at h
        obtain ⟨a, ha, rfl, _⟩ := h
        exact parseIPv6Body_length _ _ ha
      · split_ifs at h
        simp only [Option.map_eq_some', Prod.mk.injEq] at h
        obtain ⟨a, ha, rfl, _⟩ := h
        exact parseIPv6Body_length _ _ ha
    · exact ih h

/-- Go `net.ParseIP` returns nil or 16 bytes. -/
theorem ParseIP_length (s : String) : ParseIP s = [] ∨ (ParseIP s).length = 16 := by
  unfold ParseIP
  split
  · rename_i ip zone h
    split_ifs
    · left; rfl
    · right; exact parseAddrScan_length _ _ _ _ h
  · left; rfl

/-! ## Lemmas on the loops, the reply header and the handler table -/

section Blackhole
open blackhole

/-- The inner loop over the A bucket appends the mapped bucket. -/
theorem foldl_v4_answer (q : dns.Question) (v4RRs : List dns.A) (out : dns.Msg) :
    v4RRs.foldl
      (fun (out : dns.Msg) ip =>
        { out with Answer := out.Answer ++ [dns.RR.A
            { Hdr := { Name := q.Name, Rrtype := q.Qtype,
                       Class := dns.ClassINET, Ttl := 90 },
              A := ip.A }] })
      out
    = { out with Answer := out.Answer ++
          v4RRs.map (fun ip => dns.RR.A { Hdr := answerHdr q, A := ip.A }) } := by
  induction v4RRs generalizing out with
  | nil => simp
  | cons ip rest ih => simp [ih, answerHdr]

/-- The inner loop over the AAAA bucket appends the mapped bucket. -/
theorem foldl_v6_answer (q : dns.Question) (v6RRs : List dns.AAAA) (out : dns.Msg) :
    v6RRs.foldl
      (fun (out : dns.Msg) ip =>
        { out with Answer := out.Answer ++ [dns.RR.AAAA
            { Hdr := { Name := q.Name, Rrtype := q.Qtype,
                       Class := dns.ClassINET, Ttl := 90 },
              AAAA := ip.AAAA }] })
      out
    = { out with Answer := out.Answer ++
          v6RRs.map (fun ip => dns.RR.AAAA { Hdr := answerHdr q, AAAA := ip.AAAA }) } := by
  induction v6RRs generalizing out with
  | nil => simp
  | cons ip rest ih => simp [ih, answerHdr]

/-- The method `SetReply` leaves the answer section alone. -/
theorem SetReply_Answer (m req : dns.Msg) : (m.SetReply req).Answer = m.Answer := by
  simp only [dns.Msg.SetReply]
  split <;> split_ifs <;> rfl

/-- The loop over the questions appends the answer section. -/
theorem foldl_questions (v4RRs : List dns.A) (v6RRs : List dns.AAAA)
    (qs : List dns.Question) (out : dns.Msg) :
    qs.foldl
      (fun (out : dns.Msg) question =>
        if question.Qtype = dns.TypeA then
          v4RRs.foldl
            (fun (out : dns.Msg) ip =>
              { out with Answer := out.Answer ++ [dns.RR.A
                  { Hdr := { Name := question.Name, Rrtype := question.Qtype,
                             Class := dns.ClassINET, Ttl := 90 },
                    A := ip.A }] })
            out
        else if question.Qtype = dns.TypeAAAA then
          v6RRs.foldl
            (fun (out : dns.Msg) ip =>
              { out with Answer := out.Answer ++ [dns.RR.AAAA
                  { Hdr := { Name := question.Name, Rrtype := question.Qtype,
                             Class := dns.ClassINET, Ttl := 90 },
                    AAAA := ip.AAAA }] })
            out
        else out)
      out
    = { out with Answer := out.Answer ++ answerSection v4RRs v6RRs qs } := by
  induction qs generalizing out with
  | nil => simp [answerSection]
  | cons q rest ih =>
    rw [List.foldl_cons, ih]
    simp only [foldl_v4_answer, foldl_v6_answer, answerSection, List.flatMap_cons, answersOf]
    split
    · simp
    · split <;> simp

/-- The handler writes the reply of `queryReply` and closes the writer. -/
theorem queryHandlerFunc_eq (v4RRs : List dns.A) (v6RRs : List dns.AAAA)
    (w : dns.ResponseWriter) (req : dns.Msg) :
    queryHandlerFunc v4RRs v6RRs w req
      = { w with written := w.written ++ [queryReply v4RRs v6RRs req], closed := true } := by
  unfold queryHandlerFunc
  simp only [foldl_questions]
  have h : (({} : dns.Msg).SetReply req).Answer = [] := SetReply_Answer _ _
  simp [dns.ResponseWriter.WriteMsg, dns.ResponseWriter.Close, queryReply, h]

/-- The size of the answer section the specification describes. -/
theorem answerSection_length (v4RRs : List dns.A) (v6RRs : List dns.AAAA)
    (qs : List dns.Question) :
    (answerSection v4RRs v6RRs qs).length
      = qs.countP (fun q => decide (q.Qtype = dns.TypeA)) * v4RRs.length
        + qs.countP (fun q => decide (q.Qtype = dns.TypeAAAA)) * v6RRs.length := by
  induction qs with
  | nil => simp [answerSection]
  | cons q rest ih =>
    have hcons : answerSection v4RRs v6RRs (q :: rest)
        = answersOf v4RRs v6RRs q ++ answerSection v4RRs v6RRs rest := by
      simp [answerSection]
    rw [hcons, List.length_append, ih]
    have hne : dns.TypeA ≠ dns.TypeAAAA := by decide
    by_cases h4 : q.Qtype = dns.TypeA
    · simp [answersOf, h4, hne, List.countP_cons]
      ring
    · by_cases h6 : q.Qtype = dns.TypeAAAA
      · simp [answersOf, h6, hne.symm, List.countP_cons]
        ring
      · simp [answersOf, h4, h6, List.countP_cons]

/-- Every record of the answer section comes from a question and a bucket
entry and carries the header of the question. -/
theorem answerSection_mem (v4RRs : List dns.A) (v6RRs : List dns.AAAA)
    (qs : List dns.Question) (rr : dns.RR) (h : rr ∈ answerSection v4RRs v6RRs qs) :
    ∃ q ∈ qs,
      rr.Header = { Name := q.Name, Rrtype := q.Qtype, Class := dns.ClassINET, Ttl := 90 } ∧
      ((q.Qtype = dns.TypeA ∧ ∃ ip ∈ v4RRs, rr = dns.RR.A { Hdr := rr.Header, A := ip.A }) ∨
       (q.Qtype = dns.TypeAAAA ∧ ∃ ip ∈ v6RRs, rr = dns.RR.AAAA { Hdr := rr.Header, AAAA := ip.AAAA })) := by
  simp only [answerSection, List.mem_flatMap] at h
  obtain ⟨q, hq, hrr⟩ := h
  refine ⟨q, hq, ?_⟩
  unfold answersOf at hrr
  split_ifs at hrr with h4 h6
  · simp only [List.mem_map] at hrr
    obtain ⟨ip, hip, rfl⟩ := hrr
    exact ⟨rfl, Or.inl ⟨h4, ip, hip, rfl⟩⟩
  · simp only [List.mem_map] at hrr
    obtain ⟨ip, hip, rfl⟩ := hrr
    exact ⟨rfl, Or.inr ⟨h6, ip, hip, rfl⟩⟩
  · simp at hrr

/-- The inner loop of `dataIPs` over the addresses of one interface. -/
theorem dataIPs_addrs_foldl (addrs : List Addr) (out : List dns.A) :
    addrs.foldl
      (fun (out : List dns.A) addr =>
        let ip? : Option IP :=
          match addr with
          | .IPNet ip _ => some ip
          | .IPAddr ip _ => some ip
          | .other _ => none
        match ip? with
        | none => out
        | some ip =>
          if ¬ isV4IP ip then out
          else if ¬ ip.IsPrivate then out
          else out ++ [{ A := ip }])
      out
    = out ++ ((addrs.filterMap Addr.ip?).filter (fun ip => isV4IP ip && ip.IsPrivate)).map
        (fun ip => ({ A := ip } : dns.A)) := by
  induction addrs generalizing out with
  | nil => simp
  | cons addr rest ih =>
    rw [List.foldl_cons, ih]
    cases addr with
    | IPNet ip m =>
      by_cases h4 : isV4IP ip = true <;> by_cases hp : ip.IsPrivate = true <;>
        simp [Addr.ip?, h4, hp, List.filter_cons]
    | IPAddr ip z =>
      by_cases h4 : isV4IP ip = true <;> by_cases hp : ip.IsPrivate = true <;>
        simp [Addr.ip?, h4, hp, List.filter_cons]
    | other t => simp [Addr.ip?]

/-- The outer loop of `dataIPs` over the interfaces. -/
theorem dataIPs_ifaces_foldl (ifaces : List Interface) (out : List dns.A) :
    ifaces.foldl
      (fun (out : List dns.A) i =>
        if ¬ HasPrefix i.Name "eth" ∧ ¬ HasPrefix i.Name "eno" then out
        else
          match i.Addrs with
          | (_, some _) => out
          | (addrs, none) =>
            addrs.foldl
              (fun (out : List dns.A) addr =>
                let ip? : Option IP :=
                  match addr with
                  | .IPNet ip _ => some ip
                  | .IPAddr ip _ => some ip
                  | .other _ => none
                match ip? with
                | none => out
                | some ip =>
                  if ¬ isV4IP ip then out
                  else if ¬ ip.IsPrivate then out
                  else out ++ [{ A := ip }])
              out)
      out
    = out ++ (privateIPv4s ifaces).map (fun ip => ({ A := ip } : dns.A)) := by
  induction ifaces generalizing out with
  | nil => simp [privateIPv4s]
  | cons i rest ih =>
    rw [List.foldl_cons, ih]
    by_cases ha : allowListed i = true
    · have hc : ¬ (¬ HasPrefix i.Name "eth" = true ∧ ¬ HasPrefix i.Name "eno" = true) := by
        simp only [allowListed, Bool.or_eq_true] at ha
        tauto
      rw [if_neg hc]
      rcases hA : i.Addrs with ⟨addrs, _ | err⟩
      · simp only [dataIPs_addrs_foldl]
        simp [privateIPv4s, List.filter_cons, ha, retrievableIPs, hA]
      · simp [privateIPv4s, List.filter_cons, ha, retrievableIPs, hA]
    · have hc : ¬ HasPrefix i.Name "eth" = true ∧ ¬ HasPrefix i.Name "eno" = true := by
        simp only [allowListed, Bool.or_eq_true] at ha
        tauto
      rw [if_pos hc]
      simp [privateIPv4s, List.filter_cons, ha]

/-- The fields of a reply that `SetReply` does not touch. -/
theorem SetReply_kept (m req : dns.Msg) :
    (m.SetReply req).Answer = m.Answer ∧ (m.SetReply req).Ns = m.Ns ∧
    (m.SetReply req).Extra = m.Extra ∧ (m.SetReply req).Authoritative = m.Authoritative ∧
    (m.SetReply req).Truncated = m.Truncated ∧
    (m.SetReply req).RecursionAvailable = m.RecursionAvailable ∧
    (m.SetReply req).Zero = m.Zero ∧
    (m.SetReply req).AuthenticatedData = m.AuthenticatedData ∧
    (m.SetReply req).Compress = m.Compress := by
  simp only [dns.Msg.SetReply]
  split <;> split_ifs <;> simp

/-- The fields of a reply that `SetReply` overwrites. -/
theorem SetReply_set (m req : dns.Msg) :
    (m.SetReply req).Id = req.Id ∧ (m.SetReply req).Response = true ∧
    (m.SetReply req).Opcode = req.Opcode ∧ (m.SetReply req).Rcode = dns.RcodeSuccess ∧
    (m.SetReply req).RecursionDesired
      = (if req.Opcode = dns.OpcodeQuery then req.RecursionDesired else m.RecursionDesired) ∧
    (m.SetReply req).CheckingDisabled
      = (if req.Opcode = dns.OpcodeQuery then req.CheckingDisabled else m.CheckingDisabled) ∧
    (m.SetReply req).Question
      = (match req.Question with
         | q :: _ => [q]
         | [] => m.Question) := by
  simp only [dns.Msg.SetReply]
  split <;> split_ifs <;> simp

/-- Go's `To4` returns nil or four bytes. -/
theorem To4_length (ip : IP) : ip.To4 = [] ∨ ip.To4.length = 4 := by
  unfold IP.To4
  split_ifs with h1 h2
  · right; exact h1
  · right
    have h16 : ip.length = 16 := h2.1
    simp [List.length_take, List.length_drop, h16]
  · left; rfl

/-- The check `isV4IP` of the server holds exactly for IPv4 addresses. -/
theorem isV4IP_iff (ip : IP) : isV4IP ip = true ↔ ip.To4 ≠ [] := by
  unfold isV4IP
  rcases To4_length ip with h | h
  · simp [h, IPv4len]
  · have hne : ip.To4 ≠ [] := by
      intro h0
      rw [h0] at h
      simp at h
    simp [h, IPv4len, hne]

/-- The loop of `ipsToRRs` on a list without an unspecified address: entries
that pass `isV4IP` go to the A bucket, all others to the AAAA bucket. -/
theorem ipsToRRsLoop_buckets (ips : List String) (v4RRs : List dns.A) (v6RRs : List dns.AAAA)
    (h : ∀ ip ∈ ips, (ParseIP ip).IsUnspecified = false) :
    ipsToRRsLoop ips v4RRs v6RRs
      = (v4RRs ++ (ips.filter (fun ip => isV4IP (ParseIP ip))).map
            (fun ip => ({ A := ParseIP ip } : dns.A)),
         v6RRs ++ (ips.filter (fun ip => !isV4IP (ParseIP ip))).map
            (fun ip => ({ AAAA := ParseIP ip } : dns.AAAA)),
         none) := by
  induction ips generalizing v4RRs v6RRs with
  | nil => simp [ipsToRRsLoop]
  | cons ip rest ih =>
    have hu : (ParseIP ip).IsUnspecified = false := h ip (List.mem_cons_self _ _)
    have hrest : ∀ x ∈ rest, (ParseIP x).IsUnspecified = false :=
      fun x hx => h x (List.mem_cons_of_mem _ hx)
    by_cases h4 : isV4IP (ParseIP ip) = true
    · simp [ipsToRRsLoop, hu, h4, ih _ _ hrest, List.filter_cons]
    · simp [ipsToRRsLoop, hu, h4, ih _ _ hrest, List.filter_cons]

/-- The loop of `ipsToRRs` fails exactly when an entry is the unspecified
address, and then returns nil buckets. -/
theorem ipsToRRsLoop_error (ips : List String) (v4RRs : List dns.A) (v6RRs : List dns.AAAA)
    (h : ∃ ip ∈ ips, (ParseIP ip).IsUnspecified = true) :
    ∃ ip ∈ ips, ipsToRRsLoop ips v4RRs v6RRs = ([], [], some ("invalid IP: " ++ ip)) := by
  induction ips generalizing v4RRs v6RRs with
  | nil => simp at h
  | cons ip rest ih =>
    by_cases hu : (ParseIP ip).IsUnspecified = true
    · exact ⟨ip, List.mem_cons_self _ _, by simp [ipsToRRsLoop, hu]⟩
    · have hrest : ∃ x ∈ rest, (ParseIP x).IsUnspecified = true := by
        obtain ⟨x, hx, hxu⟩ := h
        rcases List.mem_cons.mp hx with rfl | hx
        · exact absurd hxu hu
        · exact ⟨x, hx, hxu⟩
      by_cases h4 : isV4IP (ParseIP ip) = true
      · obtain ⟨x, hx, hxe⟩ := ih (v4RRs ++ [{ A := ParseIP ip }]) v6RRs hrest
        exact ⟨x, List.mem_cons_of_mem _ hx, by simp [ipsToRRsLoop, hu, h4, hxe]⟩
      · obtain ⟨x, hx, hxe⟩ := ih v4RRs (v6RRs ++ [{ AAAA := ParseIP ip }]) hrest
        exact ⟨x, List.mem_cons_of_mem _ hx, by simp [ipsToRRsLoop, hu, h4, hxe]⟩

/-- The table after registering the blackhole zones: a name that is the
canonical name of a zone of the list holds the blackhole handler. -/
theorem queryHandler_foldl_mem (zones : List String) (v4RRs : List dns.A)
    (v6RRs : List dns.AAAA) (s : Server) (Z : String) (hZ : Z ∈ zones) :
    (zones.foldl (fun s zone => s.queryHandler zone v4RRs v6RRs) s).handler.z
        (dns.CanonicalName (fqZone Z))
      = some (queryHandlerFunc v4RRs v6RRs) := by
  induction zones using List.reverseRecOn generalizing s with
  | nil => simp at hZ
  | append_singleton rest last ih =>
    rw [List.foldl_append]
    simp only [List.foldl_cons, List.foldl_nil, Server.queryHandler, dns.ServeMux.HandleFunc]
    by_cases hlast : dns.CanonicalName (fqZone Z) = dns.CanonicalName (fqZone last)
    · simp [hlast]
    · simp only [hlast, if_false]
      have hmem : Z ∈ rest := by
        rcases List.mem_append.mp hZ with h | h
        · exact h
        · simp only [List.mem_singleton] at h
          rw [h] at hlast
          exact absurd rfl hlast
      exact ih s hmem

/-- The check `isV4IP` on a parsed text agrees with `isIPv4Text`. -/
theorem isV4IP_ParseIP (ip : String) : isV4IP (ParseIP ip) = isIPv4Text ip := by
  unfold isIPv4Text
  by_cases h : (ParseIP ip).To4 ≠ []
  · simp [h, (isV4IP_iff _).mpr h]
  · have h1 : ¬ isV4IP (ParseIP ip) = true := fun hc => h ((isV4IP_iff _).mp hc)
    simp only [Bool.not_eq_true] at h1
    simp [h1, h]

/-- The canonical name under which the instance-data zone is registered. -/
theorem canonical_instance_data :
    dns.CanonicalName (fqZone "instance-data.") = "instance-data." := by decide

/-- The canonical name under which the forwarder is registered. -/
theorem canonical_root : dns.CanonicalName "." = "." := by decide

/-- When `buildHandler` succeeds, the table holds the blackhole handler with
the buckets of `ipsToRRs` under every configured zone that is neither the
instance-data zone nor the root zone. -/
theorem buildHandler_table (host : Host) (s : Server) (cfg : Config)
    (hok : (s.buildHandler host cfg).2 = none)
    (Z : String) (hZ : Z ∈ cfg.Names)
    (hdata : dns.CanonicalName (fqZone Z) ≠ "instance-data.")
    (hroot : dns.CanonicalName (fqZone Z) ≠ ".") :
    (ipsToRRs cfg.IPs).2.2 = none ∧
    (s.buildHandler host cfg).1.handler.z (dns.CanonicalName (fqZone Z))
      = some (queryHandlerFunc (ipsToRRs cfg.IPs).1 (ipsToRRs cfg.IPs).2.1) := by
  unfold Server.buildHandler Server.buildHolesRoutes at hok ⊢
  rcases hI : ipsToRRs cfg.IPs with ⟨v4RRs, v6RRs, _ | err⟩
  · rw [hI] at hok
    simp only at hok ⊢
    unfold Server.buildDataRoutes at hok ⊢
    rcases hD : Server.dataIPs host cfg.IDP with ⟨ips, _ | err⟩
    · rw [hD] at hok
      simp only at hok ⊢
      refine ⟨trivial, ?_⟩
      simp only [Server.buildProxyHandler, dns.ServeMux.HandleFunc, canonical_root, hroot,
        if_false]
      simp only [Server.queryHandler, dns.ServeMux.HandleFunc, canonical_instance_data, hdata,
        if_false]
      exact queryHandler_foldl_mem cfg.Names v4RRs v6RRs s Z hZ
    · rw [hD] at hok
      simp at hok
  · rw [hI] at hok
    simp at hok

/-- The check of the override in `dataIPs`: an override that passes `isV4IP`
is refused, whatever the host is. -/
theorem dataIPs_override_v4 (host : Host) (cfgIP : String) (hne : cfgIP ≠ "")
    (h4 : isV4IP (ParseIP cfgIP) = true) :
    Server.dataIPs host cfgIP = ([], some ("invalid IP in config: " ++ cfgIP)) := by
  simp [Server.dataIPs, hne, h4]

/-- The check of the override in `dataIPs`: an override that does not pass
`isV4IP` is accepted and returned as the only A record, whatever the host is. -/
theorem dataIPs_override_not_v4 (host : Host) (cfgIP : String) (hne : cfgIP ≠ "")
    (h4 : isV4IP (ParseIP cfgIP) = false) :
    Server.dataIPs host cfgIP = ([{ A := ParseIP cfgIP }], none) := by
  simp [Server.dataIPs, hne, h4]

/-! ## The claims on the DNS server -/

/-- C1, the code at the override `10.1.2.3`: the text parses as the IPv4
address 10.1.2.3, and on every host `dataIPs` returns an error and no list,
`buildDataRoutes` fails without registering a handler, and `NewServer` fails
for the default configuration with this override. -/
theorem override_ipv4_is_refused :
    ParseIP "10.1.2.3" = IPv4 10 1 2 3 ∧ isV4IP (ParseIP "10.1.2.3") = true ∧
    (∀ host : Host,
      Server.dataIPs host "10.1.2.3" = ([], some "invalid IP in config: 10.1.2.3")) ∧
    (∀ (host : Host) (s : Server),
      (Server.buildDataRoutes host s "10.1.2.3").2
          = some "collect data ips: invalid IP in config: 10.1.2.3" ∧
      (Server.buildDataRoutes host s "10.1.2.3").1.handler.z "instance-data."
          = s.handler.z "instance-data.") ∧
    (∀ host : Host,
      (NewServer host (overrideConfig "10.1.2.3")).1.isNone = true ∧
      (NewServer host (overrideConfig "10.1.2.3")).2
          = some ("failed to build DNS handler: build data routes: " ++
                  "collect data ips: invalid IP in config: 10.1.2.3")) := by
  refine ⟨by decide, by decide, fun host => rfl, fun host s => ⟨rfl, rfl⟩, fun host => ⟨rfl, rfl⟩⟩

/-- C2, the code at the overrides `not-an-ip` and `fd00:ec2::254`: the first
does not parse, the second parses as an address that is not IPv4, and on every
host `dataIPs` returns no error and a one-element list holding the nil address
and the IPv6 address; `buildDataRoutes` and `NewServer` succeed. -/
theorem override_not_ipv4_is_accepted :
    ParseIP "not-an-ip" = [] ∧
    ParseIP "fd00:ec2::254" = [0xfd, 0, 0x0e, 0xc2, 0, 0, 0, 0, 0, 0, 0, 0, 0, 0, 0x02, 0x54] ∧
    isV4IP (ParseIP "fd00:ec2::254") = false ∧
    (∀ host : Host,
      Server.dataIPs host "not-an-ip" = ([{ A := [] }], none) ∧
      Server.dataIPs host "fd00:ec2::254" = ([{ A := ParseIP "fd00:ec2::254" }], none)) ∧
    (∀ (host : Host) (s : Server),
      (Server.buildDataRoutes host s "not-an-ip").2 = none ∧
      (Server.buildDataRoutes host s "fd00:ec2::254").2 = none) ∧
    (∀ host : Host,
      (NewServer host (overrideConfig "not-an-ip")).2 = none ∧
      (NewServer host (overrideConfig "not-an-ip")).1.isSome = true ∧
      (NewServer host (overrideConfig "fd00:ec2::254")).2 = none ∧
      (NewServer host (overrideConfig "fd00:ec2::254")).1.isSome = true) := by
  refine ⟨by decide, by decide, by decide, fun host => ⟨rfl, rfl⟩, fun host s => ⟨rfl, rfl⟩,
    fun host => ⟨rfl, rfl, rfl, rfl⟩⟩

/-- C3, the code at the IP lists `["not-an-ip"]` and `[""]`: neither entry
parses, yet `ipsToRRs` returns no error and an AAAA bucket holding the nil
address; `buildHolesRoutes` succeeds and registers the zone, whose handler
answers a type-AAAA question with a record without address. The unspecified
addresses `0.0.0.0` and `::` are refused with nil buckets. -/
theorem ipsToRRs_accepts_unparsable :
    ParseIP "not-an-ip" = [] ∧ ParseIP "" = [] ∧
    ipsToRRs ["not-an-ip"] = ([], [{ AAAA := [] }], none) ∧
    ipsToRRs [""] = ([], [{ AAAA := [] }], none) ∧
    (freshServer.buildHolesRoutes ["example.invalid."] ["not-an-ip"]).2 = none ∧
    ((freshServer.buildHolesRoutes ["example.invalid."] ["not-an-ip"]).1.handler.z
        "example.invalid.").map
        (fun h => (h client holeQueryAAAA).written.map (fun out => out.Answer))
      = some [[dns.RR.AAAA
          { Hdr := { Name := "example.invalid.", Rrtype := dns.TypeAAAA,
                     Class := dns.ClassINET, Ttl := 90 },
            AAAA := [] }]] ∧
    ipsToRRs ["10.0.0.1", "0.0.0.0"] = ([], [], some "invalid IP: 0.0.0.0") ∧
    ipsToRRs ["10.0.0.1", "::"] = ([], [], some "invalid IP: ::") := by
  decide

/-- C4, counterexample: with the zone list `["instance-data"]`, the IP list
`["10.0.0.1"]` and no override on a host with the loopback interface only,
`buildHandler`
succeeds, but the handler that the table holds under `instance-data.` answers
a type-A question with no record at all, while the configured IPv4 addresses
give one record: the instance-data registration replaced the blackhole one. -/
theorem instance_data_zone_replaces_blackhole :
    (freshServer.buildHandler quietHost shadowedConfig).2 = none ∧
    "instance-data" ∈ shadowedConfig.Names ∧
    dns.CanonicalName (fqZone "instance-data") = "instance-data." ∧
    ((freshServer.buildHandler quietHost shadowedConfig).1.handler.z "instance-data.").map
        (fun h => (h client dataQueryA).written.map (fun out => out.Answer))
      = some [[]] ∧
    configuredV4Answers shadowedConfig.IPs
        { Name := "instance-data.", Qtype := dns.TypeA, Qclass := dns.ClassINET }
      = [dns.RR.A
          { Hdr := { Name := "instance-data.", Rrtype := dns.TypeA, Class := dns.ClassINET,
                     Ttl := 90 },
            A := IPv4 10 0 0 1 }] := by
  decide

/-- C4, amended: when `buildHandler` succeeds and every entry of the IP list
parses as an IP address, then for every zone `Z` of the zone list whose
canonical fully-qualified name is neither `instance-data.` nor `.`, the handler
that the finished table holds under that canonical name answers a single
type-A question with exactly the configured IPv4 addresses in configured order
and a single type-AAAA question with exactly the configured IPv6 addresses in
configured order. -/
theorem blackhole_zone_served (host : Host) (s : Server) (cfg : Config)
    (hok : (s.buildHandler host cfg).2 = none)
    (hparse : ∀ ip ∈ cfg.IPs, ParseIP ip ≠ [])
    (Z : String) (hZ : Z ∈ cfg.Names)
    (hdata : dns.CanonicalName (fqZone Z) ≠ "instance-data.")
    (hroot : dns.CanonicalName (fqZone Z) ≠ ".") :
    ∃ h : dns.HandlerFunc,
      (s.buildHandler host cfg).1.handler.z (dns.CanonicalName (fqZone Z)) = some h ∧
      ∀ (w : dns.ResponseWriter) (req : dns.Msg) (q : dns.Question), req.Question = [q] →
        ∃ out : dns.Msg, (h w req).written = w.written ++ [out] ∧
          (q.Qtype = dns.TypeA → out.Answer = configuredV4Answers cfg.IPs q) ∧
          (q.Qtype = dns.TypeAAAA → out.Answer = configuredV6Answers cfg.IPs q) := by
  obtain ⟨herr, htable⟩ := buildHandler_table host s cfg hok Z hZ hdata hroot
  have hun : ∀ ip ∈ cfg.IPs, (ParseIP ip).IsUnspecified = false := by
    by_contra hcon
    push_neg at hcon
    obtain ⟨ip, hip, hu⟩ := hcon
    simp only [ne_eq, Bool.not_eq_false] at hu
    obtain ⟨x, _, hx⟩ := ipsToRRsLoop_error cfg.IPs [] [] ⟨ip, hip, hu⟩
    unfold ipsToRRs at herr
    rw [hx] at herr
    simp at herr
  have hbuckets := ipsToRRsLoop_buckets cfg.IPs [] [] hun
  have h6 : cfg.IPs.filter (fun ip => !isV4IP (ParseIP ip)) = cfg.IPs.filter isIPv6Text := by
    apply List.filter_congr
    intro ip hip
    have hp := hparse ip hip
    rw [isV4IP_ParseIP]
    unfold isIPv4Text isIPv6Text
    by_cases h4 : (ParseIP ip).To4 = [] <;> simp [h4, hp]
  have h4 : cfg.IPs.filter (fun ip => isV4IP (ParseIP ip)) = cfg.IPs.filter isIPv4Text := by
    apply List.filter_congr
    intro ip _
    exact isV4IP_ParseIP ip
  refine ⟨_, htable, ?_⟩
  intro w req q hq
  refine ⟨queryReply (ipsToRRs cfg.IPs).1 (ipsToRRs cfg.IPs).2.1 req, ?_, ?_, ?_⟩
  · rw [queryHandlerFunc_eq]
  · intro hA
    simp [queryReply, answerSection, hq, answersOf, hA, ipsToRRs, hbuckets, h4,
      configuredV4Answers, List.map_map, Function.comp_def]
  · intro hAAAA
    have hne : ¬ dns.TypeAAAA = dns.TypeA := by decide
    simp [queryReply, answerSection, hq, answersOf, hAAAA, hne, ipsToRRs, hbuckets, h6,
      configuredV6Answers, List.map_map, Function.comp_def]

/-- C4, witness: the amended statement for the default configuration of
`LoadConfig` and its zone `example.invalid.`. -/
theorem blackhole_zone_served_witness :
    (freshServer.buildHandler sampleHost defaultDNS).2 = none ∧
    ∃ h : dns.HandlerFunc,
      (freshServer.buildHandler sampleHost defaultDNS).1.handler.z
          (dns.CanonicalName (fqZone "example.invalid.")) = some h ∧
      ∀ (w : dns.ResponseWriter) (req : dns.Msg) (q : dns.Question), req.Question = [q] →
        ∃ out : dns.Msg, (h w req).written = w.written ++ [out] ∧
          (q.Qtype = dns.TypeA → out.Answer = configuredV4Answers defaultDNS.IPs q) ∧
          (q.Qtype = dns.TypeAAAA → out.Answer = configuredV6Answers defaultDNS.IPs q) :=
  ⟨by decide,
   blackhole_zone_served sampleHost freshServer defaultDNS (by decide) (by decide)
     "example.invalid." (by decide) (by decide) (by decide)⟩

/-- C5: the handler that `queryHandler(zone, v4RRs, v6RRs)` registers writes,
for every query, exactly one message and closes the writer; its answer section
is the concatenation over the questions, in order, of one A record per entry
of `v4RRs` for a type-A question, one AAAA record per entry of `v6RRs` for a
type-AAAA question and nothing for another type; every record carries the name
and type of its question, class INET and TTL 90; the answer count is
(#A questions) * |v4RRs| + (#AAAA questions) * |v6RRs|. The message is a reply
to the query: it has the id and opcode of the query, the response flag set,
response code success, the RD and CD flags of the query when its opcode is
Query, the first question of the query as its question section, no authority
and no additional records, and every other flag clear. -/
theorem queryHandler_answer_synthesis (s : Server) (zone : String)
    (v4RRs : List dns.A) (v6RRs : List dns.AAAA) (w : dns.ResponseWriter) (req : dns.Msg) :
    (s.queryHandler zone v4RRs v6RRs).handler.z (dns.CanonicalName (fqZone zone))
        = some (queryHandlerFunc v4RRs v6RRs) ∧
    ∃ out : dns.Msg,
      (queryHandlerFunc v4RRs v6RRs w req).written = w.written ++ [out] ∧
      out.Answer = answerSection v4RRs v6RRs req.Question ∧
      (∀ rr ∈ out.Answer, ∃ q ∈ req.Question,
        rr.Header = { Name := q.Name, Rrtype := q.Qtype, Class := dns.ClassINET, Ttl := 90 } ∧
        ((q.Qtype = dns.TypeA ∧ ∃ ip ∈ v4RRs, rr = dns.RR.A { Hdr := rr.Header, A := ip.A }) ∨
         (q.Qtype = dns.TypeAAAA ∧
            ∃ ip ∈ v6RRs, rr = dns.RR.AAAA { Hdr := rr.Header, AAAA := ip.AAAA }))) ∧
      out.Answer.length
        = req.Question.countP (fun q => decide (q.Qtype = dns.TypeA)) * v4RRs.length
          + req.Question.countP (fun q => decide (q.Qtype = dns.TypeAAAA)) * v6RRs.length ∧
      queryHandlerFunc v4RRs v6RRs w req
        = { RemoteAddr := w.RemoteAddr, written := w.written ++ [out], closed := true } ∧
      out.Id = req.Id ∧ out.Response = true ∧ out.Opcode = req.Opcode ∧
      out.Rcode = dns.RcodeSuccess ∧
      out.RecursionDesired
        = (if req.Opcode = dns.OpcodeQuery then req.RecursionDesired else false) ∧
      out.CheckingDisabled
        = (if req.Opcode = dns.OpcodeQuery then req.CheckingDisabled else false) ∧
      out.Question = req.Question.take 1 ∧
      out.Ns = [] ∧ out.Extra = [] ∧
      out.Authoritative = false ∧ out.Truncated = false ∧
      out.RecursionAvailable = false ∧ out.Zero = false ∧
      out.AuthenticatedData = false ∧ out.Compress = false := by
  obtain ⟨_, k2, k3, k4, k5, k6, k7, k8, k9⟩ := SetReply_kept ({} : dns.Msg) req
  obtain ⟨c1, c2, c3, c4, c5, c6, c7⟩ := SetReply_set ({} : dns.Msg) req
  have hq : (({} : dns.Msg).SetReply req).Question = req.Question.take 1 := by
    rw [c7]
    cases req.Question <;> rfl
  refine ⟨?_, queryReply v4RRs v6RRs req, ?_, rfl, ?_, ?_, ?_,
    c1, c2, c3, c4, c5, c6, hq, k2, k3, k4, k5, k6, k7, k8, k9⟩
  · simp [Server.queryHandler, dns.ServeMux.HandleFunc]
  · rw [queryHandlerFunc_eq]
  · intro rr hrr
    exact answerSection_mem v4RRs v6RRs req.Question rr hrr
  · exact answerSection_length v4RRs v6RRs req.Question
  · rw [queryHandlerFunc_eq]

/-- C5, at a query with three questions and the buckets of the default
configuration: one reply to the query with the A record for the first
question and the AAAA record for the second, nothing for the MX question. -/
theorem queryHandler_answer_synthesis_witness :
    (∃ out : dns.Msg,
      (queryHandlerFunc (ipsToRRs defaultDNS.IPs).1 (ipsToRRs defaultDNS.IPs).2.1
          client mixedQuery).written = client.written ++ [out] ∧
      out.Answer
        = answerSection (ipsToRRs defaultDNS.IPs).1 (ipsToRRs defaultDNS.IPs).2.1
            mixedQuery.Question ∧
      out.Id = mixedQuery.Id ∧ out.Response = true ∧ out.Rcode = dns.RcodeSuccess ∧
      out.Question = mixedQuery.Question.take 1) ∧
    queryHandlerFunc (ipsToRRs defaultDNS.IPs).1 (ipsToRRs defaultDNS.IPs).2.1
        client mixedQuery
      = { RemoteAddr := "192.0.2.1:5353",
          written :=
            [{ Id := 21, Response := true, RecursionDesired := true,
               Question := [{ Name := "a.example.invalid.", Qtype := dns.TypeA,
                              Qclass := dns.ClassINET }],
               Answer :=
                 [dns.RR.A
                    { Hdr := { Name := "a.example.invalid.", Rrtype := dns.TypeA,
                               Class := dns.ClassINET, Ttl := 90 },
                      A := IPv4 169 254 169 254 },
                  dns.RR.AAAA
                    { Hdr := { Name := "b.example.invalid.", Rrtype := dns.TypeAAAA,
                               Class := dns.ClassINET, Ttl := 90 },
                      AAAA := [0xfd, 0, 0x0e, 0xc2, 0, 0, 0, 0, 0, 0, 0, 0, 0, 0, 0x02,
                               0x54] }] }],
          closed := true } :=
  ⟨(queryHandler_answer_synthesis freshServer "example.invalid."
      (ipsToRRs defaultDNS.IPs).1 (ipsToRRs defaultDNS.IPs).2.1 client mixedQuery).2.elim
      (fun out h =>
        ⟨out, h.1, h.2.1, h.2.2.2.2.2.1, h.2.2.2.2.2.2.1, h.2.2.2.2.2.2.2.2.1,
          h.2.2.2.2.2.2.2.2.2.2.2.1⟩),
   by decide⟩

/-- C6: without an override, over any list of host interfaces, `dataIPs`
returns no error and exactly the private IPv4 addresses of the interfaces
whose name starts with `eth` or `eno`, in interface-then-address order; every
returned address is IPv4, private and an address of an allow-listed interface;
an interface whose address lookup fails contributes nothing and does not make
`dataIPs` fail. -/
theorem dataIPs_scans_interfaces (ifaces : List Interface)
    (exchange : dns.Msg → String → dns.Msg × error) :
    Server.dataIPs { Interfaces := (ifaces, none), Exchange := exchange } ""
        = ((privateIPv4s ifaces).map (fun ip => ({ A := ip } : dns.A)), none) ∧
    (∀ rr ∈ (Server.dataIPs { Interfaces := (ifaces, none), Exchange := exchange } "").1,
        isV4IP rr.A = true ∧ rr.A.IsPrivate = true ∧
        ∃ i ∈ ifaces, allowListed i = true ∧ ∃ addrs, i.Addrs = (addrs, none) ∧
          ∃ addr ∈ addrs, addr.ip? = some rr.A) ∧
    (∀ (before after : List Interface) (i : Interface), i.Addrs.2 ≠ none →
        Server.dataIPs { Interfaces := (before ++ i :: after, none), Exchange := exchange } ""
          = Server.dataIPs { Interfaces := (before ++ after, none), Exchange := exchange } "") := by
  have heq : ∀ l : List Interface,
      Server.dataIPs { Interfaces := (l, none), Exchange := exchange } ""
        = ((privateIPv4s l).map (fun ip => ({ A := ip } : dns.A)), none) := by
    intro l
    simp only [Server.dataIPs, ne_eq, not_true_eq_false, if_false, dataIPs_ifaces_foldl]
    simp
  refine ⟨heq ifaces, ?_, ?_⟩
  · intro rr hrr
    rw [heq] at hrr
    simp only [List.mem_map, privateIPv4s, List.mem_filter, List.mem_flatMap,
      Bool.and_eq_true] at hrr
    obtain ⟨ip, ⟨⟨i, ⟨hi, hal⟩, hmem⟩, h4, hp⟩, rfl⟩ := hrr
    refine ⟨h4, hp, i, hi, hal, ?_⟩
    unfold retrievableIPs at hmem
    rcases hA : i.Addrs with ⟨addrs, _ | err⟩
    · rw [hA] at hmem
      simp only [List.mem_filterMap] at hmem
      obtain ⟨addr, haddr, hip⟩ := hmem
      exact ⟨addrs, rfl, addr, haddr, hip⟩
    · rw [hA] at hmem
      simp at hmem
  · intro before after i hfail
    rw [heq, heq]
    have hnil : retrievableIPs i = [] := by
      unfold retrievableIPs
      rcases hA : i.Addrs with ⟨addrs, _ | err⟩
      · rw [hA] at hfail
        exact absurd rfl hfail
      · rfl
    have : privateIPv4s (before ++ i :: after) = privateIPv4s (before ++ after) := by
      simp only [privateIPv4s, List.filter_append, List.flatMap_append, List.filter_cons]
      by_cases ha : allowListed i = true
      · simp [ha, hnil]
      · simp [ha]
    rw [this]

/-- C6, at the interfaces of `sampleHost`, alone and with an interface whose
address lookup fails: the only address returned is 10.0.0.5 of `eth0`. -/
theorem dataIPs_scans_interfaces_witness :
    Server.dataIPs sampleHost "" = ([{ A := IPv4 10 0 0 5 }], none) ∧
    Server.dataIPs failingLookupHost "" = Server.dataIPs sampleHost "" :=
  ⟨(dataIPs_scans_interfaces sampleHost.Interfaces.1 sampleHost.Exchange).1,
   (dataIPs_scans_interfaces sampleHost.Interfaces.1 sampleHost.Exchange).2.2
     [{ Name := "lo", Addrs := ([.IPNet (IPv4 127 0 0 1) [0xff, 0, 0, 0]], none) }]
     [{ Name := "eth0",
        Addrs := ([.IPNet (IPv4 10 0 0 5) [0xff, 0xff, 0xff, 0],
                   .IPNet (IPv4 93 184 216 34) [0xff, 0xff, 0xff, 0],
                   .IPNet (ParseIP "fe80::1") (List.replicate 8 0xff ++ List.replicate 8 0)],
                  none) }]
     { Name := "eno1", Addrs := ([], some "route ip+net: no such network interface") }
     (by decide)⟩

/-- C7, counterexample: the upstream exchange succeeds with a reply whose
response code is NXDOMAIN, and the one message the forwarder writes to the
client is that reply with the response code reset to success, not the reply
itself. -/
theorem proxyHandler_rewrites_rcode :
    nxdomainHost.Exchange otherQuery "1.1.1.1:53" = (nxdomainReply, none) ∧
    (proxyHandlerFunc nxdomainHost "1.1.1.1:53" client otherQuery).written
      = [{ nxdomainReply with Rcode := dns.RcodeSuccess }] ∧
    (proxyHandlerFunc nxdomainHost "1.1.1.1:53" client otherQuery).written
      ≠ client.written ++ [nxdomainReply] := by
  decide

/-- C7, amended: `buildProxyHandler` registers the forwarder for the root
zone and never fails. For every query, if the exchange with the upstream
resolver succeeds with reply `R`, exactly one message is written to the client,
namely `R` after `R.SetReply(query)`: the answer, authority and additional
records and the flags AA, TC, RA, Z, AD are those of `R`, while the id and
opcode are those of the query, the response flag is set, the response code is
success, RD and CD are those of the query when its opcode is Query, and the
question section is the first question of the query when it has one. If the
exchange fails, nothing is written. -/
theorem proxyHandler_relays_after_SetReply (host : Host) (s : Server) (upstream : String)
    (w : dns.ResponseWriter) (req : dns.Msg) :
    (Server.buildProxyHandler host s upstream).2 = none ∧
    (Server.buildProxyHandler host s upstream).1.handler.z "."
      = some (proxyHandlerFunc host upstream) ∧
    (∀ R : dns.Msg, host.Exchange req upstream = (R, none) →
      (proxyHandlerFunc host upstream w req).written = w.written ++ [R.SetReply req] ∧
      (R.SetReply req).Answer = R.Answer ∧ (R.SetReply req).Ns = R.Ns ∧
      (R.SetReply req).Extra = R.Extra ∧
      (R.SetReply req).Authoritative = R.Authoritative ∧
      (R.SetReply req).Truncated = R.Truncated ∧
      (R.SetReply req).RecursionAvailable = R.RecursionAvailable ∧
      (R.SetReply req).Zero = R.Zero ∧
      (R.SetReply req).AuthenticatedData = R.AuthenticatedData ∧
      (R.SetReply req).Id = req.Id ∧ (R.SetReply req).Response = true ∧
      (R.SetReply req).Opcode = req.Opcode ∧ (R.SetReply req).Rcode = dns.RcodeSuccess ∧
      (R.SetReply req).RecursionDesired
        = (if req.Opcode = dns.OpcodeQuery then req.RecursionDesired else R.RecursionDesired) ∧
      (R.SetReply req).CheckingDisabled
        = (if req.Opcode = dns.OpcodeQuery then req.CheckingDisabled else R.CheckingDisabled) ∧
      (R.SetReply req).Question
        = (match req.Question with
           | q :: _ => [q]
           | [] => R.Question)) ∧
    (∀ (R : dns.Msg) (e : String), host.Exchange req upstream = (R, some e) →
      (proxyHandlerFunc host upstream w req).written = w.written) := by
  refine ⟨rfl, ?_, ?_, ?_⟩
  · have hroot : dns.CanonicalName "." = "." := by decide
    simp [Server.buildProxyHandler, dns.ServeMux.HandleFunc, hroot]
  · intro R hR
    obtain ⟨k1, k2, k3, k4, k5, k6, k7, k8, _⟩ := SetReply_kept R req
    obtain ⟨c1, c2, c3, c4, c5, c6, c7⟩ := SetReply_set R req
    refine ⟨?_, k1, k2, k3, k4, k5, k6, k7, k8, c1, c2, c3, c4, c5, c6, c7⟩
    simp [proxyHandlerFunc, hR, dns.ResponseWriter.WriteMsg]
  · intro R e hR
    simp [proxyHandlerFunc, hR]

/-- C7, witness: the amended statement at the NXDOMAIN reply and at a failing
exchange. -/
theorem proxyHandler_relays_after_SetReply_witness :
    (proxyHandlerFunc nxdomainHost "1.1.1.1:53" client otherQuery).written
      = client.written ++ [nxdomainReply.SetReply otherQuery] ∧
    (proxyHandlerFunc quietHost "1.1.1.1:53" client otherQuery).written = client.written :=
  ⟨((proxyHandler_relays_after_SetReply nxdomainHost freshServer "1.1.1.1:53" client
      otherQuery).2.2.1 nxdomainReply rfl).1,
   (proxyHandler_relays_after_SetReply quietHost freshServer "1.1.1.1:53" client
      otherQuery).2.2.2 {} "i/o timeout" rfl⟩

/-- C8, the code at the IP list `["10.0.0.1", "not-an-ip"]`: `ipsToRRs`
returns no error; the list holds no IPv6 address, yet the AAAA bucket is not
nil, and its entry holds the nil address, which is no IPv6 address. -/
theorem ipsToRRs_buckets_unparsable :
    ipsToRRs ["10.0.0.1", "not-an-ip"]
      = ([{ A := IPv4 10 0 0 1 }], [{ AAAA := [] }], none) ∧
    ["10.0.0.1", "not-an-ip"].filter isIPv6Text = [] ∧
    ["10.0.0.1", "not-an-ip"].filter isIPv4Text = ["10.0.0.1"] ∧
    (ipsToRRs ["10.0.0.1", "not-an-ip"]).2.1 ≠ [] ∧
    ((ipsToRRs ["10.0.0.1", "not-an-ip"]).2.1.map (fun rr => rr.AAAA)) = [[]] := by
  decide

/-- C9, the code at the override `::1`: on every host `buildDataRoutes`
succeeds and registers under `instance-data.` a handler with the A bucket
holding the IPv6 loopback address and an empty AAAA bucket, and this handler
answers a type-A question with an A record whose address is that 16-byte
IPv6 address, not an IPv4 address. -/
theorem instance_data_serves_ipv6_override :
    ParseIP "::1" = [0, 0, 0, 0, 0, 0, 0, 0, 0, 0, 0, 0, 0, 0, 0, 1] ∧
    isV4IP (ParseIP "::1") = false ∧
    (∀ (host : Host) (s : Server),
      (Server.buildDataRoutes host s "::1").2 = none ∧
      (Server.buildDataRoutes host s "::1").1.handler.z "instance-data."
        = some (queryHandlerFunc [{ A := ParseIP "::1" }] [])) ∧
    (queryHandlerFunc [{ A := ParseIP "::1" }] [] client dataQueryA).written.map
        (fun out => out.Answer)
      = [[dns.RR.A
          { Hdr := { Name := "instance-data.", Rrtype := dns.TypeA, Class := dns.ClassINET,
                     Ttl := 90 },
            A := [0, 0, 0, 0, 0, 0, 0, 0, 0, 0, 0, 0, 0, 0, 0, 1] }]] := by
  refine ⟨by decide, by decide, fun host s => ⟨rfl, rfl⟩, by decide⟩

end Blackhole

/-! ## The claim on the provider choice -/

section ConfigClaims
open config

/-- On a text of ASCII characters `strings.ToLower` does not consult the
Unicode case tables. -/
theorem ToLower_ascii (caseTable : Char → Char) (data : String)
    (h : ∀ c ∈ data.data, c.toNat ≤ 0x7f) : ToLower caseTable data = ToLower id data := by
  unfold ToLower
  congr 1
  apply List.map_congr_left
  intro c hc
  simp [unicodeToLower, h c hc]

/-- C10: `NewDataProvider` looks at the configured kind alone: kind `fs`
yields the file server rooted at `FS.Dir`, kind `proxy` yields the reverse
proxy to `Proxy.Upstream`, and every other kind, the kind none (the empty
string) included, yields an error and no provider, so that
`NewInstanceDataServer` fails too. `UnmarshalText` sets the kind none for a
text that is `""` or `none` in lower case, `fs` for `fs`, `proxy` for `proxy`,
and for every other text fails and leaves the kind as it was. -/
theorem provider_selection (caseTable : Char → Char) :
    (∀ r : Runtime, r.cfg.InstanceData.Provider = "fs" →
      r.NewDataProvider = (some (Provider.FileServer r.cfg.InstanceData.FS.Dir), none)) ∧
    (∀ r : Runtime, r.cfg.InstanceData.Provider = "proxy" →
      r.NewDataProvider
        = (some (Provider.ReverseProxy r.cfg.InstanceData.Proxy.Upstream), none)) ∧
    (∀ r : Runtime, r.cfg.InstanceData.Provider ≠ "fs" →
      r.cfg.InstanceData.Provider ≠ "proxy" →
      r.NewDataProvider
        = (none, some ("unsupported instance data provider: " ++ r.cfg.InstanceData.Provider)) ∧
      r.NewInstanceDataServer
        = (none, some ("create data provider: " ++
            ("unsupported instance data provider: " ++ r.cfg.InstanceData.Provider)))) ∧
    (∀ (k : InstanceDataProviderKind) (data : String),
      ToLower caseTable data = "" ∨ ToLower caseTable data = "none" →
      UnmarshalText caseTable k data = (InstanceDataProviderKindNone, none) ∧
      InstanceDataProviderKindNone = "" ∧
      ∀ r : Runtime, r.cfg.InstanceData.Provider = (UnmarshalText caseTable k data).1 →
        r.NewDataProvider.1 = none ∧ r.NewDataProvider.2 ≠ none ∧
        r.NewInstanceDataServer.1 = none ∧ r.NewInstanceDataServer.2 ≠ none) ∧
    (∀ (k : InstanceDataProviderKind) (data : String), ToLower caseTable data = "fs" →
      UnmarshalText caseTable k data = ("fs", none)) ∧
    (∀ (k : InstanceDataProviderKind) (data : String), ToLower caseTable data = "proxy" →
      UnmarshalText caseTable k data = ("proxy", none)) ∧
    (∀ (k : InstanceDataProviderKind) (data : String),
      ToLower caseTable data ≠ "" → ToLower caseTable data ≠ "none" →
      ToLower caseTable data ≠ "fs" → ToLower caseTable data ≠ "proxy" →
      UnmarshalText caseTable k data = (k, some ("invalid upstream kind: " ++ data))) := by
  have hother : ∀ r : Runtime, r.cfg.InstanceData.Provider ≠ "fs" →
      r.cfg.InstanceData.Provider ≠ "proxy" →
      r.NewDataProvider
        = (none, some ("unsupported instance data provider: " ++ r.cfg.InstanceData.Provider)) ∧
      r.NewInstanceDataServer
        = (none, some ("create data provider: " ++
            ("unsupported instance data provider: " ++ r.cfg.InstanceData.Provider))) := by
    intro r hfs hproxy
    have h1 : r.NewDataProvider
        = (none, some ("unsupported instance data provider: " ++ r.cfg.InstanceData.Provider)) := by
      simp [Runtime.NewDataProvider, InstanceDataProviderKindFS, InstanceDataProviderKindProxy,
        hfs, hproxy]
    refine ⟨h1, ?_⟩
    simp [Runtime.NewInstanceDataServer, h1]
  refine ⟨?_, ?_, hother, ?_, ?_, ?_, ?_⟩
  · intro r h
    simp [Runtime.NewDataProvider, InstanceDataProviderKindFS, h, fsprovider.NewProvider]
  · intro r h
    have hne : ¬ ("proxy" : String) = "fs" := by decide
    simp [Runtime.NewDataProvider, InstanceDataProviderKindFS, InstanceDataProviderKindProxy, h,
      hne, proxyprovider.NewProvider]
  · intro k data h
    have hU : UnmarshalText caseTable k data = (InstanceDataProviderKindNone, none) := by
      simp [UnmarshalText, h]
    refine ⟨hU, rfl, ?_⟩
    intro r hr
    rw [hU] at hr
    have hfs : r.cfg.InstanceData.Provider ≠ "fs" := by
      rw [hr]; decide
    have hproxy : r.cfg.InstanceData.Provider ≠ "proxy" := by
      rw [hr]; decide
    obtain ⟨h1, h2⟩ := hother r hfs hproxy
    rw [h1, h2]
    simp
  · intro k data h
    have h1 : ¬ (("fs" : String) = "" ∨ ("fs" : String) = "none") := by decide
    simp [UnmarshalText, h, h1, InstanceDataProviderKindFS]
  · intro k data h
    have h1 : ¬ (("proxy" : String) = "" ∨ ("proxy" : String) = "none") := by decide
    have h2 : ¬ (("proxy" : String) = "fs") := by decide
    simp [UnmarshalText, h, h1, h2, InstanceDataProviderKindProxy]
  · intro k data h1 h2 h3 h4
    simp [UnmarshalText, h1, h2, h3, h4]

/-- C10, witness: the statement at the texts `FS`, `Proxy`, `NONE`, `http` and
at the runtimes of kind `fs`, `proxy`, none and `FS`. -/
theorem provider_selection_witness :
    (runtimeOfKind "fs").NewDataProvider = (some (Provider.FileServer "./data"), none) ∧
    (runtimeOfKind "proxy").NewDataProvider
      = (some (Provider.ReverseProxy "169.254.169.254:80"), none) ∧
    (runtimeOfKind "").NewInstanceDataServer
      = (none, some "create data provider: unsupported instance data provider: ") ∧
    (runtimeOfKind "FS").NewDataProvider
      = (none, some "unsupported instance data provider: FS") ∧
    UnmarshalText id "proxy" "NONE" = ("", none) ∧
    UnmarshalText id "" "FS" = ("fs", none) ∧
    UnmarshalText id "" "Proxy" = ("proxy", none) ∧
    UnmarshalText id "fs" "http" = ("fs", some "invalid upstream kind: http") :=
  ⟨(provider_selection id).1 (runtimeOfKind "fs") rfl,
   (provider_selection id).2.1 (runtimeOfKind "proxy") rfl,
   ((provider_selection id).2.2.1 (runtimeOfKind "") (by decide) (by decide)).2,
   ((provider_selection id).2.2.1 (runtimeOfKind "FS") (by decide) (by decide)).1,
   ((provider_selection id).2.2.2.1 "proxy" "NONE" (by decide)).1,
   (provider_selection id).2.2.2.2.1 "" "FS" (by decide),
   (provider_selection id).2.2.2.2.2.1 "" "Proxy" (by decide),
   (provider_selection id).2.2.2.2.2.2 "fs" "http" (by decide) (by decide) (by decide)
     (by decide)⟩

end ConfigClaims

end RogueMetadata
